import Mathlib

/-!
# Verification of the GoldSrc DLL injector (`inject.py`)

Shallow embedding of the remote export-table resolver `find_remote_export`
and the injection orchestrator `inject_dll` from `src/inject.py`, together
with theorems checking the specification's claims about them.

Remote memory is modelled as a read oracle `ReadOracle`: a function from
(address, requested length) to `Option (List Nat)`, where `none` models a
`ReadProcessMemory` call that returns `FALSE` (failed / short read: on
failure the zero-initialised ctypes destination buffer is left untouched)
and `some bs` models a successful call that deposited the bytes `bs` into
the destination buffer.  Buffers are fixed-size and zero-initialised, so a
successful read is normalised with `toBuf` (truncate/zero-pad to the
requested length, each byte reduced mod 256), and a failed unchecked read
yields the all-zero buffer.

`struct.unpack_from` is modelled by `unpackU32` / `unpackU16`, which return
`none` exactly when the offset is out of range of the buffer — the case in
which the Python code raises `struct.error`.  The result type `FRes`
distinguishes a normal return (`ok (some addr)` / `ok none`) from such an
uncaught fault (`fault`).

The embedding of `find_remote_export` also returns the trace of remote
read requests it issued, as a list of (address, length) pairs, so that
claims of the form "issues no reads past the failed check" are statable.
-/

set_option autoImplicit false
set_option maxRecDepth 8192

namespace Inject

/-- A remote-memory read oracle: `read addr len` is `none` when the
`ReadProcessMemory` call fails, `some bs` when it succeeds having written
the bytes `bs` into the destination buffer. -/
abbrev ReadOracle := Nat → Nat → Option (List Nat)

/-- Normalise raw oracle output into the fixed-size zero-initialised ctypes
buffer of length `len`: bytes reduced mod 256, truncated to `len`, and
zero-padded (unwritten tail of the buffer stays zero). -/
def toBuf (len : Nat) (bs : List Nat) : List Nat :=
  (bs.take len).map (fun b => b % 256) ++ List.replicate (len - min len bs.length) 0

/-- Byte of a buffer at an index (0 beyond the end; used only in-bounds). -/
def byteAt (bs : List Nat) (i : Nat) : Nat := bs.getD i 0

/-- `struct.unpack_from('<I', bs, off)`: little-endian 32-bit read.
`none` models the `struct.error` raised when `off + 4` exceeds the
buffer length. -/
def unpackU32 (bs : List Nat) (off : Nat) : Option Nat :=
  if off + 4 ≤ bs.length then
    some (byteAt bs off + 256 * byteAt bs (off + 1) +
      65536 * byteAt bs (off + 2) + 16777216 * byteAt bs (off + 3))
  else none

/-- `struct.unpack_from('<H', bs, off)`: little-endian 16-bit read.
`none` models `struct.error` on an out-of-range offset. -/
def unpackU16 (bs : List Nat) (off : Nat) : Option Nat :=
  if off + 2 ≤ bs.length then
    some (byteAt bs off + 256 * byteAt bs (off + 1))
  else none

/-- Result of one call to `find_remote_export`: a normal return carrying
`some address` or `none` (`ok`), or an uncaught `struct.error` (`fault`). -/
inductive FRes where
  | ok : Option Nat → FRes
  | fault : FRes
  deriving DecidableEq, Repr

/-- The name-pointer-array buffer (`name_rvas_data`): the `nn * 4`-byte
zero-initialised buffer after the unchecked bulk read at
`module_base + name_rvas_rva`. -/
def nameTableBuf (read : ReadOracle) (module_base nrv nn : Nat) : List Nat :=
  toBuf (nn * 4) ((read (module_base + nrv) (nn * 4)).getD [])

/-- The ordinal-array buffer (`ordinals_data`): the `nn * 2`-byte
zero-initialised buffer after the unchecked bulk read at
`module_base + ordinals_rva`. -/
def ordTableBuf (read : ReadOracle) (module_base orv nn : Nat) : List Nat :=
  toBuf (nn * 2) ((read (module_base + orv) (nn * 2)).getD [])

/-- The function-RVA-array buffer (`func_rvas_data`): the `nf * 4`-byte
zero-initialised buffer after the unchecked bulk read at
`module_base + func_rvas_rva`. -/
def funcTableBuf (read : ReadOracle) (module_base frv nf : Nat) : List Nat :=
  toBuf (nf * 4) ((read (module_base + frv) (nf * 4)).getD [])

/-- One candidate's name as the Python computes it:
`bytes(name_buf).split(b'\x00')[0]` after the unchecked 128-byte read of
the string at `module_base + name_rva` — the fixed window truncated at the
first zero byte. -/
def candidateName (read : ReadOracle) (module_base name_rva : Nat) : List Nat :=
  (toBuf 128 ((read (module_base + name_rva) 128).getD [])).takeWhile (fun b => b ≠ 0)

/-- The Step-5 loop of `find_remote_export` (`for i in range(num_names)`),
with `k` iterations left starting at index `i`.  Per candidate: decode the
name RVA from the name-pointer buffer, issue an (unchecked) 128-byte read
of the name string, truncate at the first zero byte, compare byte-exactly
with the target; on a match decode the ordinal and index the function-RVA
buffer.  Returns the result together with the reads issued. -/
def searchExportNames (read : ReadOracle) (module_base : Nat) (func_name : List Nat)
    (nameData ordData funcData : List Nat) : Nat → Nat → FRes × List (Nat × Nat)
  | 0, _ => (FRes.ok none, [])
  | k + 1, i =>
    match unpackU32 nameData (i * 4) with
    | none => (FRes.fault, [])
    | some name_rva =>
      let tr := [(module_base + name_rva, 128)]
      let name := candidateName read module_base name_rva
      if name = func_name then
        match unpackU16 ordData (i * 2) with
        | none => (FRes.fault, tr)
        | some ordinal =>
          match unpackU32 funcData (ordinal * 4) with
          | none => (FRes.fault, tr)
          | some func_rva => (FRes.ok (some (module_base + func_rva)), tr)
      else
        let rest := searchExportNames read module_base func_name nameData ordData funcData k (i + 1)
        (rest.1, tr ++ rest.2)

/-- Steps 3–6 of `find_remote_export`, entered once the export-directory
RVA has been decoded from the optional header: the `export_rva == 0` check,
the checked 40-byte export-directory read, the three unchecked bulk array
reads (a failed bulk read leaves the zero-initialised buffer), and the name
scan. -/
def findRemoteExportDir (read : ReadOracle) (module_base : Nat) (func_name : List Nat)
    (export_rva : Nat) : FRes × List (Nat × Nat) :=
  if export_rva = 0 then (FRes.ok none, [])
  else
    let t3 : List (Nat × Nat) := [(module_base + export_rva, 40)]
    match read (module_base + export_rva) 40 with
    | none => (FRes.ok none, t3)
    | some r3 =>
      let ed := toBuf 40 r3
      match unpackU32 ed 20, unpackU32 ed 24, unpackU32 ed 28,
          unpackU32 ed 32, unpackU32 ed 36 with
      | some num_functions, some num_names, some func_rvas_rva,
          some name_rvas_rva, some ordinals_rva =>
        let t4 : List (Nat × Nat) :=
          [(module_base + name_rvas_rva, num_names * 4),
           (module_base + ordinals_rva, num_names * 2),
           (module_base + func_rvas_rva, num_functions * 4)]
        let name_rvas_data := nameTableBuf read module_base name_rvas_rva num_names
        let ordinals_data := ordTableBuf read module_base ordinals_rva num_names
        let func_rvas_data := funcTableBuf read module_base func_rvas_rva num_functions
        let rest := searchExportNames read module_base func_name
          name_rvas_data ordinals_data func_rvas_data num_names 0
        (rest.1, t3 ++ t4 ++ rest.2)
      | _, _, _, _, _ => (FRes.fault, t3)

/-- `find_remote_export(h_process, module_base, function_name)` from
`src/inject.py`, over the read oracle standing for `(h_process,
ReadProcessMemory)`; `func_name` is the ASCII byte string of
`function_name`.  Returns the result and the trace of reads issued. -/
def find_remote_export (read : ReadOracle) (module_base : Nat) (func_name : List Nat) :
    FRes × List (Nat × Nat) :=
  let t1 : List (Nat × Nat) := [(module_base, 64)]
  match read module_base 64 with
  | none => (FRes.ok none, t1)
  | some r1 =>
    let dos_header := toBuf 64 r1
    match unpackU32 dos_header 60 with
    | none => (FRes.fault, t1)
    | some e_lfanew =>
      let t2 : List (Nat × Nat) := t1 ++ [(module_base + e_lfanew, 256)]
      match read (module_base + e_lfanew) 256 with
      | none => (FRes.ok none, t2)
      | some r2 =>
        let pe_data := toBuf 256 r2
        match unpackU32 pe_data 0 with
        | none => (FRes.fault, t2)
        | some pe_sig =>
          if pe_sig ≠ 0x4550 then (FRes.ok none, t2)
          else
            match unpackU16 pe_data 24 with
            | none => (FRes.fault, t2)
            | some magic =>
              if magic = 0x10B then
                match unpackU32 pe_data (24 + 96) with
                | none => (FRes.fault, t2)
                | some export_rva =>
                  let rest := findRemoteExportDir read module_base func_name export_rva
                  (rest.1, t2 ++ rest.2)
              else if magic = 0x20B then
                match unpackU32 pe_data (24 + 112) with
                | none => (FRes.fault, t2)
                | some export_rva =>
                  let rest := findRemoteExportDir read module_base func_name export_rva
                  (rest.1, t2 ++ rest.2)
              else (FRes.ok none, t2)

/-- Spec-side description of the resolver's lookup (from the spec's words):
scan the name table in array order starting at index `i`; at the first
entry whose name equals `func_name`, return
`module_base + functionTable[ordinalTable[index]]`; `none` when the table
is exhausted. -/
def specFirstMatch (module_base : Nat) (func_name : List Nat) (ords funcs : List Nat) :
    List (List Nat) → Nat → Option Nat
  | [], _ => none
  | nm :: rest, i =>
    if nm = func_name then some (module_base + funcs.getD (ords.getD i 0) 0)
    else specFirstMatch module_base func_name ords funcs rest (i + 1)

/-- A well-formed export name as stored in the image: NUL-terminated
within the 128-byte read window (length ≤ 127) and made of nonzero bytes
below 256. -/
def goodName (nm : List Nat) : Prop :=
  nm.length < 128 ∧ ∀ b ∈ nm, 0 < b ∧ b < 256

instance (nm : List Nat) : Decidable (goodName nm) := by
  unfold goodName; infer_instance

/-- ASCII bytes of `"LoadLibraryA"`, the symbol `inject_dll` resolves. -/
def loadLibraryName : List Nat := [76, 111, 97, 100, 76, 105, 98, 114, 97, 114, 121, 65]

/-- The pipeline step at which one run of `inject_dll` ended (`success` and
`timeout` both make `inject_dll` return `True`; every other stage returns
`False` or, for `exceptionRaised`, propagates a `struct.error`). -/
inductive Stage where
  | dllMissing | openFail | allocFail | writeFail
  | moduleFail | exportFail | getProcFail | exceptionRaised
  | rangeFail | threadFail | loadNull | timeout | success
  deriving DecidableEq, Repr

/-- Environment of one `inject_dll` run: the outcomes the OS collaborators
hand back at each call site.  `dllPathBytes` is the encoded absolute DLL
path (the written string is `dllPathBytes ++ [0]`, so `dll_size`
is `dllPathBytes.length + 1`; the source uses it only as the
allocation/write size, never in control flow).
`openProcess`/`alloc`/`write`/`createThread`
are `none` when the corresponding API call reports failure; `write` carries
the `bytes_written` out-value on success; `getProc` is the local
`GetProcAddress` result (0 = failure); `moduleBase` is what
`find_remote_module_base` returns; `read` serves `find_remote_export`'s
`ReadProcessMemory` calls; `waitResult` and `exitCode` are what
`WaitForSingleObject` and `GetExitCodeThread` report. -/
structure Env where
  dllExists : Bool
  dllPathBytes : List Nat
  openProcess : Option Nat
  self64 : Bool
  targ32 : Bool
  alloc : Option Nat
  write : Option Nat
  moduleBase : Option Nat
  read : ReadOracle
  getProc : Nat
  createThread : Option Nat
  waitResult : Nat
  exitCode : Nat

/-- Observable outcome of one `inject_dll` run: the Python return value
(`ret`), whether an exception escaped (`raised`), the stage reached, which
handles were opened/created and which were closed before returning, whether
the remote-resolution path (`find_remote_module_base` /
`find_remote_export`) was invoked, and the resolved `LoadLibraryA` address
if resolution completed. -/
structure InjectResult where
  ret : Bool
  raised : Bool
  stage : Stage
  processOpened : Bool
  processClosed : Bool
  threadCreated : Bool
  threadClosed : Bool
  usedRemoteResolve : Bool
  resolvedAddr : Option Nat
  deriving DecidableEq, Repr

/-- The tail of `inject_dll` from the `load_library_addr` sanity check
onward (lines 413–450): the 32-bit range guard, `CreateRemoteThread`, the
10-second `WaitForSingleObject`, the `GetExitCodeThread` interpretation,
and handle closing.  `usedRemote` records which resolution branch ran.
The process handle is closed by the `finally` block on every one of these
paths; the thread-handle close on line 445 is skipped by the early
`return False` of the `exit_code == 0` branch. -/
def injectAfterResolve (env : Env) (load_library_addr : Nat) (usedRemote : Bool) :
    InjectResult :=
  if env.targ32 && decide (load_library_addr > 0xFFFFFFFF) then
    { ret := false, raised := false, stage := .rangeFail,
      processOpened := true, processClosed := true,
      threadCreated := false, threadClosed := false,
      usedRemoteResolve := usedRemote, resolvedAddr := some load_library_addr }
  else
    match env.createThread with
    | none =>
      { ret := false, raised := false, stage := .threadFail,
        processOpened := true, processClosed := true,
        threadCreated := false, threadClosed := false,
        usedRemoteResolve := usedRemote, resolvedAddr := some load_library_addr }
    | some _h_thread =>
      if env.waitResult = 0 then
        if env.exitCode ≠ 0 then
          { ret := true, raised := false, stage := .success,
            processOpened := true, processClosed := true,
            threadCreated := true, threadClosed := true,
            usedRemoteResolve := usedRemote, resolvedAddr := some load_library_addr }
        else
          { ret := false, raised := false, stage := .loadNull,
            processOpened := true, processClosed := true,
            threadCreated := true, threadClosed := false,
            usedRemoteResolve := usedRemote, resolvedAddr := some load_library_addr }
      else
        { ret := true, raised := false, stage := .timeout,
          processOpened := true, processClosed := true,
          threadCreated := true, threadClosed := true,
          usedRemoteResolve := usedRemote, resolvedAddr := some load_library_addr }

/-- `inject_dll(process_id, dll_path)` from `src/inject.py`.  Mirrors the
source's control flow: DLL-existence check, `OpenProcess`, cross-arch
detection, then inside `try`/`finally`: `VirtualAllocEx`,
`WriteProcessMemory` (only the API's boolean is checked, never the
`bytes_written` count), the resolution branch (`find_remote_module_base` +
`find_remote_export` when cross-arch, local `GetProcAddress` otherwise),
and `injectAfterResolve`.  A `struct.error` from `find_remote_export`
escapes through `finally` (process handle closed, thread handle never
created). -/
def inject_dll (env : Env) : InjectResult :=
  if env.dllExists = false then
    { ret := false, raised := false, stage := .dllMissing,
      processOpened := false, processClosed := false,
      threadCreated := false, threadClosed := false,
      usedRemoteResolve := false, resolvedAddr := none }
  else
    match env.openProcess with
    | none =>
      { ret := false, raised := false, stage := .openFail,
        processOpened := false, processClosed := false,
        threadCreated := false, threadClosed := false,
        usedRemoteResolve := false, resolvedAddr := none }
    | some _h_process =>
      let cross_arch := env.self64 && env.targ32
      match env.alloc with
      | none =>
        { ret := false, raised := false, stage := .allocFail,
          processOpened := true, processClosed := true,
          threadCreated := false, threadClosed := false,
          usedRemoteResolve := false, resolvedAddr := none }
      | some _remote_memory =>
        match env.write with
        | none =>
          { ret := false, raised := false, stage := .writeFail,
            processOpened := true, processClosed := true,
            threadCreated := false, threadClosed := false,
            usedRemoteResolve := false, resolvedAddr := none }
        | some _bytes_written =>
          if cross_arch then
            match env.moduleBase with
            | none =>
              { ret := false, raised := false, stage := .moduleFail,
                processOpened := true, processClosed := true,
                threadCreated := false, threadClosed := false,
                usedRemoteResolve := true, resolvedAddr := none }
            | some kernel32_base =>
              match (find_remote_export env.read kernel32_base loadLibraryName).1 with
              | FRes.fault =>
                { ret := false, raised := true, stage := .exceptionRaised,
                  processOpened := true, processClosed := true,
                  threadCreated := false, threadClosed := false,
                  usedRemoteResolve := true, resolvedAddr := none }
              | FRes.ok none =>
                { ret := false, raised := false, stage := .exportFail,
                  processOpened := true, processClosed := true,
                  threadCreated := false, threadClosed := false,
                  usedRemoteResolve := true, resolvedAddr := none }
              | FRes.ok (some load_library_addr) =>
                injectAfterResolve env load_library_addr true
          else
            if env.getProc = 0 then
              { ret := false, raised := false, stage := .getProcFail,
                processOpened := true, processClosed := true,
                threadCreated := false, threadClosed := false,
                usedRemoteResolve := false, resolvedAddr := none }
            else
              injectAfterResolve env env.getProc false

/-- Exit status of `main()` given the environment of the `inject_dll` call
and whether `find_process_by_name` found the target: `sys.exit(1)` when the
DLL is missing or the process is absent, exit 1 when `inject_dll` returns
`False` or an exception escapes, exit 0 when it returns `True`. -/
def main_exit (env : Env) (processFound : Bool) : Nat :=
  if env.dllExists = false then 1
  else if processFound = false then 1
  else
    let r := inject_dll env
    if r.raised then 1 else if r.ret then 0 else 1

/-! ## Concrete synthetic images and environments

Small concrete read oracles (synthetic remote images) and `inject_dll`
environments used to evaluate the embedded code at specific inputs. -/

/-- Little-endian 4-byte encoding of a 32-bit value. -/
def le32 (w : Nat) : List Nat :=
  [w % 256, w / 256 % 256, w / 65536 % 256, w / 16777216 % 256]

/-- Little-endian 2-byte encoding of a 16-bit value. -/
def le16 (w : Nat) : List Nat := [w % 256, w / 256 % 256]

/-- A 64-byte DOS header whose `e_lfanew` (offset 0x3C) is 64. -/
def demoDos : List Nat := List.replicate 60 0 ++ le32 64

/-- A 256-byte PE-header window: signature `PE\0\0`, file header zeroed,
optional-header magic 0x10B (PE32), export-directory RVA `erva` at
optional-header offset 96 (byte 120). -/
def demoPe (erva : Nat) : List Nat :=
  le32 0x4550 ++ List.replicate 20 0 ++ le16 0x10B ++
    List.replicate 94 0 ++ le32 erva ++ List.replicate 132 0

/-- A 256-byte PE-header window with a wrong signature (0x1234) — a
malformed image. -/
def demoPeBadSig : List Nat := le32 0x1234 ++ List.replicate 252 0

/-- A 40-byte export directory: `NumberOfFunctions = nf`,
`NumberOfNames = nn`, and the three array RVAs. -/
def demoEd (nf nn frv nrv orv : Nat) : List Nat :=
  List.replicate 20 0 ++ le32 nf ++ le32 nn ++ le32 frv ++ le32 nrv ++ le32 orv

/-- Image for the unchecked-read scenario: a well-formed header chain with
one named export, but the bulk read of the name-pointer array FAILS
(`none`).  The zero-filled name-pointer buffer makes the scan read a
"name" at RVA 0 (the DOS header address), where the bytes `"A\0"` happen
to sit, so the scan still matches and resolves. -/
def c1Read : ReadOracle := fun addr len =>
  if addr = 0 ∧ len = 64 then some demoDos
  else if addr = 64 ∧ len = 256 then some (demoPe 1024)
  else if addr = 1024 ∧ len = 40 then some (demoEd 1 1 2048 3072 4096)
  else if addr = 3072 ∧ len = 4 then none
  else if addr = 4096 ∧ len = 2 then some (le16 0)
  else if addr = 2048 ∧ len = 4 then some (le32 22136)
  else if addr = 0 ∧ len = 128 then some [65, 0]
  else none

/-- Image whose single named export matches `"A"` but whose ordinal entry
is 5 while `NumberOfFunctions` is 1: the function-array indexing escapes
the 4-byte buffer that was read. -/
def c6Read : ReadOracle := fun addr len =>
  if addr = 0 ∧ len = 64 then some demoDos
  else if addr = 64 ∧ len = 256 then some (demoPe 1024)
  else if addr = 1024 ∧ len = 40 then some (demoEd 1 1 2048 3072 4096)
  else if addr = 3072 ∧ len = 4 then some (le32 5120)
  else if addr = 4096 ∧ len = 2 then some (le16 5)
  else if addr = 2048 ∧ len = 4 then some (le32 7)
  else if addr = 5120 ∧ len = 128 then some [65, 0]
  else none

/-- Image whose single export name is 128 `'A'` bytes: the NUL terminator
lies beyond the 128-byte read window, yet a 128-byte query string still
matches the truncated window exactly. -/
def c10Read : ReadOracle := fun addr len =>
  if addr = 0 ∧ len = 64 then some demoDos
  else if addr = 64 ∧ len = 256 then some (demoPe 1024)
  else if addr = 1024 ∧ len = 40 then some (demoEd 1 1 2048 3072 4096)
  else if addr = 3072 ∧ len = 4 then some (le32 5120)
  else if addr = 4096 ∧ len = 2 then some (le16 0)
  else if addr = 2048 ∧ len = 4 then some (le32 1)
  else if addr = 5120 ∧ len = 128 then some (List.replicate 128 65)
  else none

/-- Image with a malformed PE signature (used to exercise the
structural-check exits). -/
def c5Read : ReadOracle := fun addr len =>
  if addr = 0 ∧ len = 64 then some demoDos
  else if addr = 64 ∧ len = 256 then some demoPeBadSig
  else none

/-- A well-formed two-name export image: names `"B"` (ordinal 1) and
`"AB"` (ordinal 0), function RVAs `[17, 34]`. -/
def wfRead : ReadOracle := fun addr len =>
  if addr = 0 ∧ len = 64 then some demoDos
  else if addr = 64 ∧ len = 256 then some (demoPe 1024)
  else if addr = 1024 ∧ len = 40 then some (demoEd 2 2 2048 3072 4096)
  else if addr = 3072 ∧ len = 8 then some (le32 5120 ++ le32 5376)
  else if addr = 4096 ∧ len = 4 then some (le16 1 ++ le16 0)
  else if addr = 2048 ∧ len = 8 then some (le32 17 ++ le32 34)
  else if addr = 5120 ∧ len = 128 then some [66]
  else if addr = 5376 ∧ len = 128 then some [65, 66]
  else none

/-- A well-formed one-export image relocated to base `b`, exporting
`"LoadLibraryA"` at function RVA 22136. -/
def demoReadAt (b : Nat) : ReadOracle := fun addr len =>
  if addr = b ∧ len = 64 then some demoDos
  else if addr = b + 64 ∧ len = 256 then some (demoPe 1024)
  else if addr = b + 1024 ∧ len = 40 then some (demoEd 1 1 2048 3072 4096)
  else if addr = b + 3072 ∧ len = 4 then some (le32 5120)
  else if addr = b + 4096 ∧ len = 2 then some (le16 0)
  else if addr = b + 2048 ∧ len = 4 then some (le32 22136)
  else if addr = b + 5120 ∧ len = 128 then
    some [76, 111, 97, 100, 76, 105, 98, 114, 97, 114, 121, 65, 0]
  else none

/-- An oracle for runs that never reach `find_remote_export`. -/
def noRead : ReadOracle := fun _ _ => none

/-- Environment in which every step up to the wait succeeds and
`WaitForSingleObject` reports 258 (`WAIT_TIMEOUT`). -/
def envTimeout : Env :=
  { dllExists := true, openProcess := some 100, self64 := false, targ32 := false,
    alloc := some 7, write := some 13, moduleBase := none, read := noRead,
    getProc := 42, createThread := some 8, waitResult := 258, exitCode := 0,
    dllPathBytes := [99, 58] }

/-- Environment in which the remote thread completes (`WAIT_OBJECT_0`) but
`GetExitCodeThread` reports 0 (`LoadLibrary` returned NULL). -/
def envLoadNull : Env :=
  { dllExists := true, openProcess := some 100, self64 := false, targ32 := false,
    alloc := some 7, write := some 13, moduleBase := none, read := noRead,
    getProc := 42, createThread := some 8, waitResult := 0, exitCode := 0,
    dllPathBytes := [99, 58] }

/-- Environment in which `WriteProcessMemory` reports success but wrote 0
of the 3 payload bytes (a short write), and the local `GetProcAddress`
then fails — exposing that the run reached the resolution stage. -/
def envShortWrite : Env :=
  { dllExists := true, openProcess := some 100, self64 := false, targ32 := false,
    alloc := some 7, write := some 0, moduleBase := none, read := noRead,
    getProc := 0, createThread := some 8, waitResult := 0, exitCode := 1,
    dllPathBytes := [99, 58] }

/-- Cross-architecture environment whose target `kernel32` sits at base
0xFFFFFFFF, so the resolved 32-bit-target address exceeds 0xFFFFFFFF. -/
def envRange : Env :=
  { dllExists := true, openProcess := some 100, self64 := true, targ32 := true,
    alloc := some 7, write := some 13, moduleBase := some 4294967295,
    read := demoReadAt 4294967295, getProc := 0, createThread := some 8,
    waitResult := 0, exitCode := 1, dllPathBytes := [99, 58] }

/-- Same-architecture environment in which every step succeeds. -/
def envSameArch : Env :=
  { dllExists := true, openProcess := some 100, self64 := true, targ32 := false,
    alloc := some 7, write := some 13, moduleBase := some 4096, read := noRead,
    getProc := 42, createThread := some 8, waitResult := 0, exitCode := 77,
    dllPathBytes := [99, 58] }

/-! ## Helper lemmas -/

theorem toBuf_length (len : Nat) (bs : List Nat) : (toBuf len bs).length = len := by
  simp [toBuf]

theorem toBuf_lt (len : Nat) (bs : List Nat) : ∀ b ∈ toBuf len bs, b < 256 := by
  intro b hb
  rcases List.mem_append.1 hb with h | h
  · rcases List.mem_map.1 h with ⟨a, _, rfl⟩
    exact Nat.mod_lt _ (by omega)
  · rw [List.eq_of_mem_replicate h]
    omega

theorem takeWhile_append_of_all (p : Nat → Bool) (l1 l2 : List Nat)
    (h : ∀ b ∈ l1, p b = true) :
    (l1 ++ l2).takeWhile p = l1 ++ l2.takeWhile p := by
  induction l1 with
  | nil => simp
  | cons a l ih =>
    simp [List.takeWhile_cons, h a (by simp), ih (fun b hb => h b (by simp [hb]))]

theorem takeWhile_replicate_zero (k : Nat) :
    (List.replicate k 0).takeWhile (fun b => b ≠ 0) = ([] : List Nat) := by
  cases k with
  | zero => simp
  | succ n => simp [List.replicate_succ, List.takeWhile_cons]

theorem map_mod_eq_self (nm : List Nat) (h : ∀ b ∈ nm, b < 256) :
    nm.map (fun b => b % 256) = nm := by
  induction nm with
  | nil => simp
  | cons a l ih =>
    simp only [List.map_cons, List.cons.injEq]
    exact ⟨Nat.mod_eq_of_lt (h a (by simp)), ih (fun b hb => h b (by simp [hb]))⟩

theorem candidateName_eq (read : ReadOracle) (module_base rva : Nat) (nm : List Nat)
    (hgood : goodName nm) (hread : read (module_base + rva) 128 = some nm) :
    candidateName read module_base rva = nm := by
  obtain ⟨hlen, hb⟩ := hgood
  unfold candidateName
  rw [hread]
  have htake : nm.take 128 = nm := List.take_of_length_le (by omega)
  have hmap : nm.map (fun b => b % 256) = nm :=
    map_mod_eq_self nm (fun b hbm => (hb b hbm).2)
  simp only [Option.getD_some, toBuf, htake, hmap]
  rw [takeWhile_append_of_all _ nm _ (fun b hbm => by
    simpa using Nat.pos_iff_ne_zero.mp (hb b hbm).1)]
  rw [takeWhile_replicate_zero]
  simp

theorem length_takeWhile_le (p : Nat → Bool) (l : List Nat) :
    (l.takeWhile p).length ≤ l.length := by
  induction l with
  | nil => simp
  | cons a t ih =>
    rw [List.takeWhile_cons]
    split
    · simpa using ih
    · simp

theorem candidateName_length_le (read : ReadOracle) (module_base rva : Nat) :
    (candidateName read module_base rva).length ≤ 128 := by
  unfold candidateName
  calc ((toBuf 128 ((read (module_base + rva) 128).getD [])).takeWhile
          (fun b => b ≠ 0)).length
      ≤ (toBuf 128 ((read (module_base + rva) 128).getD [])).length :=
        length_takeWhile_le _ _
    _ = 128 := toBuf_length _ _

theorem unpackU32_toBuf (len off : Nat) (bs : List Nat) (h : off + 4 ≤ len) :
    ∃ v, unpackU32 (toBuf len bs) off = some v := by
  unfold unpackU32
  rw [toBuf_length]
  simp [h]

theorem unpackU16_toBuf (len off : Nat) (bs : List Nat) (h : off + 2 ≤ len) :
    ∃ v, unpackU16 (toBuf len bs) off = some v := by
  unfold unpackU16
  rw [toBuf_length]
  simp [h]

theorem getD_of_drop_cons {α : Type} (l : List α) (i : Nat) (a d : α) (rest : List α)
    (h : l.drop i = a :: rest) : l.getD i d = a := by
  have h0 : (l.drop i)[0]? = l[i]? := by
    rw [List.getElem?_drop, Nat.add_zero]
  rw [h] at h0
  simp at h0
  simp [List.getD_eq_getElem?_getD, ← h0]

theorem drop_succ_of_drop_cons {α : Type} (l : List α) (i : Nat) (a : α) (rest : List α)
    (h : l.drop i = a :: rest) : l.drop (i + 1) = rest := by
  rw [← List.tail_drop, h, List.tail_cons]

theorem lt_length_of_drop_cons {α : Type} (l : List α) (i : Nat) (a : α) (rest : List α)
    (h : l.drop i = a :: rest) : i < l.length := by
  by_contra hc
  push_neg at hc
  rw [List.drop_eq_nil_of_le hc] at h
  simp at h

theorem searchExportNames_spec (read : ReadOracle) (module_base : Nat) (fn : List Nat)
    (names : List (List Nat)) (nameRvas ords funcs : List Nat)
    (nameData ordData funcData : List Nat)
    (hnb : ∀ i, i < names.length → unpackU32 nameData (i * 4) = some (nameRvas.getD i 0))
    (hob : ∀ i, i < names.length → unpackU16 ordData (i * 2) = some (ords.getD i 0))
    (hfb : ∀ i, i < names.length →
      unpackU32 funcData (ords.getD i 0 * 4) = some (funcs.getD (ords.getD i 0) 0))
    (hread : ∀ i, i < names.length →
      read (module_base + nameRvas.getD i 0) 128 = some (names.getD i []))
    (hgood : ∀ i, i < names.length → goodName (names.getD i [])) :
    ∀ (suffix : List (List Nat)) (i : Nat), names.drop i = suffix →
    (searchExportNames read module_base fn nameData ordData funcData suffix.length i).1 =
      FRes.ok (specFirstMatch module_base fn ords funcs suffix i) := by
  intro suffix
  induction suffix with
  | nil => intro i _; simp [searchExportNames, specFirstMatch]
  | cons nm rest ih =>
    intro i hdrop
    have hi : i < names.length := lt_length_of_drop_cons _ _ _ _ hdrop
    have hgd : names.getD i [] = nm := getD_of_drop_cons _ _ _ _ _ hdrop
    have hv := hnb i hi
    have hcn : candidateName read module_base (nameRvas.getD i 0) = nm := by
      have hc := candidateName_eq read module_base (nameRvas.getD i 0) (names.getD i [])
        (hgood i hi) (hread i hi)
      rw [hgd] at hc
      exact hc
    show (searchExportNames read module_base fn nameData ordData funcData
      (rest.length + 1) i).1 = _
    by_cases heq : nm = fn
    · have hordi := hob i hi
      have hfbi := hfb i hi
      simp only [searchExportNames, hv, hcn, heq, hordi, hfbi, specFirstMatch,
        eq_self_iff_true, ite_true]
    · simp only [searchExportNames, hv, hcn, heq, ite_false, specFirstMatch]
      exact ih (i + 1) (drop_succ_of_drop_cons _ _ _ _ hdrop)

theorem findRemoteExportDir_spec (read : ReadOracle) (module_base : Nat) (fn : List Nat)
    (names : List (List Nat)) (nameRvas ords funcs : List Nat)
    (erva frv nrv orv : Nat) (r3 : List Nat)
    (hne : erva ≠ 0)
    (h3 : read (module_base + erva) 40 = some r3)
    (h20 : unpackU32 (toBuf 40 r3) 20 = some funcs.length)
    (h24 : unpackU32 (toBuf 40 r3) 24 = some names.length)
    (h28 : unpackU32 (toBuf 40 r3) 28 = some frv)
    (h32 : unpackU32 (toBuf 40 r3) 32 = some nrv)
    (h36 : unpackU32 (toBuf 40 r3) 36 = some orv)
    (hnb : ∀ i, i < names.length →
      unpackU32 (nameTableBuf read module_base nrv names.length) (i * 4) =
        some (nameRvas.getD i 0))
    (hob : ∀ i, i < names.length →
      unpackU16 (ordTableBuf read module_base orv names.length) (i * 2) =
        some (ords.getD i 0))
    (hfb : ∀ i, i < names.length →
      unpackU32 (funcTableBuf read module_base frv funcs.length) (ords.getD i 0 * 4) =
        some (funcs.getD (ords.getD i 0) 0))
    (hread : ∀ i, i < names.length →
      read (module_base + nameRvas.getD i 0) 128 = some (names.getD i []))
    (hgood : ∀ i, i < names.length → goodName (names.getD i [])) :
    (findRemoteExportDir read module_base fn erva).1 =
      FRes.ok (specFirstMatch module_base fn ords funcs names 0) := by
  unfold findRemoteExportDir
  rw [if_neg hne, h3]
  simp only [h20, h24, h28, h32, h36]
  exact searchExportNames_spec read module_base fn names nameRvas ords funcs
    _ _ _ hnb hob hfb hread hgood names 0 (by simp)

/-- C2: for every well-formed export directory with `names.length` named
entries readable through the given read oracle — header chain intact,
narrow or wide optional-header layout, nonzero export RVA, the directory
counts and array RVAs decoding as stated, each name-pointer/ordinal/
function-RVA entry decoding from the bulk buffers as stated, and each
name string NUL-terminated within the 128-byte window — `find_remote_export`
returns `module_base + funcs[ords[i]]` for `i` the first index in
name-array order whose name equals `fn` byte-exactly (case-sensitively),
and `None` when no entry's name equals `fn`. -/
theorem find_remote_export_correct (read : ReadOracle) (module_base : Nat) (fn : List Nat)
    (names : List (List Nat)) (nameRvas ords funcs : List Nat)
    (e erva frv nrv orv : Nat) (r1 r2 r3 : List Nat)
    (h1 : read module_base 64 = some r1)
    (he : unpackU32 (toBuf 64 r1) 60 = some e)
    (h2 : read (module_base + e) 256 = some r2)
    (hsig : unpackU32 (toBuf 256 r2) 0 = some 0x4550)
    (hmag : unpackU16 (toBuf 256 r2) 24 = some 0x10B ∧
        unpackU32 (toBuf 256 r2) (24 + 96) = some erva ∨
      unpackU16 (toBuf 256 r2) 24 = some 0x20B ∧
        unpackU32 (toBuf 256 r2) (24 + 112) = some erva)
    (hne : erva ≠ 0)
    (h3 : read (module_base + erva) 40 = some r3)
    (h20 : unpackU32 (toBuf 40 r3) 20 = some funcs.length)
    (h24 : unpackU32 (toBuf 40 r3) 24 = some names.length)
    (h28 : unpackU32 (toBuf 40 r3) 28 = some frv)
    (h32 : unpackU32 (toBuf 40 r3) 32 = some nrv)
    (h36 : unpackU32 (toBuf 40 r3) 36 = some orv)
    (hnb : ∀ i, i < names.length →
      unpackU32 (nameTableBuf read module_base nrv names.length) (i * 4) =
        some (nameRvas.getD i 0))
    (hob : ∀ i, i < names.length →
      unpackU16 (ordTableBuf read module_base orv names.length) (i * 2) =
        some (ords.getD i 0))
    (hfb : ∀ i, i < names.length →
      unpackU32 (funcTableBuf read module_base frv funcs.length) (ords.getD i 0 * 4) =
        some (funcs.getD (ords.getD i 0) 0))
    (hread : ∀ i, i < names.length →
      read (module_base + nameRvas.getD i 0) 128 = some (names.getD i []))
    (hgood : ∀ i, i < names.length → goodName (names.getD i [])) :
    (find_remote_export read module_base fn).1 =
      FRes.ok (specFirstMatch module_base fn ords funcs names 0) := by
  have hd := findRemoteExportDir_spec read module_base fn names nameRvas ords funcs
    erva frv nrv orv r3 hne h3 h20 h24 h28 h32 h36 hnb hob hfb hread hgood
  rcases hmag with ⟨hm, hrva⟩ | ⟨hm, hrva⟩
  · simp [find_remote_export, h1, he, h2, hsig, hm, hrva, hd]
  · simp [find_remote_export, h1, he, h2, hsig, hm, hrva, hd]

/-- Witness for C2: the two-name image `wfRead` (names `"B"` ordinal 1 and
`"AB"` ordinal 0, function RVAs `[17, 34]`) resolves `"AB"` to the
first-match specification's answer. -/
theorem find_remote_export_correct_witness :
    (find_remote_export wfRead 0 [65, 66]).1 =
      FRes.ok (specFirstMatch 0 [65, 66] [1, 0] [17, 34] [[66], [65, 66]] 0) :=
  find_remote_export_correct wfRead 0 [65, 66] [[66], [65, 66]] [5120, 5376] [1, 0]
    [17, 34] 64 1024 2048 3072 4096 demoDos (demoPe 1024) (demoEd 2 2 2048 3072 4096)
    (by decide) (by decide) (by decide) (by decide) (Or.inl ⟨by decide, by decide⟩)
    (by decide) (by decide) (by decide) (by decide) (by decide) (by decide) (by decide)
    (by decide) (by decide) (by decide) (by decide) (by decide)

/-- C5: with the DOS-header and PE-header reads succeeding, a wrong PE
signature, an unrecognized optional-header magic, or a zero
export-directory RVA each make `find_remote_export` return `None` having
issued exactly the two header reads — no read past the failed check, and
in the zero-RVA case no export-directory read. -/
theorem find_remote_export_malformed (read : ReadOracle) (module_base : Nat) (fn : List Nat)
    (e s m : Nat) (r1 r2 : List Nat)
    (h1 : read module_base 64 = some r1)
    (he : unpackU32 (toBuf 64 r1) 60 = some e)
    (h2 : read (module_base + e) 256 = some r2)
    (hs : unpackU32 (toBuf 256 r2) 0 = some s)
    (hm : unpackU16 (toBuf 256 r2) 24 = some m) :
    (s ≠ 0x4550 →
      find_remote_export read module_base fn =
        (FRes.ok none, [(module_base, 64), (module_base + e, 256)])) ∧
    (s = 0x4550 → m ≠ 0x10B → m ≠ 0x20B →
      find_remote_export read module_base fn =
        (FRes.ok none, [(module_base, 64), (module_base + e, 256)])) ∧
    (s = 0x4550 → m = 0x10B → unpackU32 (toBuf 256 r2) (24 + 96) = some 0 →
      find_remote_export read module_base fn =
        (FRes.ok none, [(module_base, 64), (module_base + e, 256)])) ∧
    (s = 0x4550 → m = 0x20B → unpackU32 (toBuf 256 r2) (24 + 112) = some 0 →
      find_remote_export read module_base fn =
        (FRes.ok none, [(module_base, 64), (module_base + e, 256)])) := by
  refine ⟨fun hne => ?_, fun hsv hm1 hm2 => ?_, fun hsv hmv hz => ?_, fun hsv hmv hz => ?_⟩
  · simp [find_remote_export, h1, he, h2, hs, hne]
  · subst hsv
    simp [find_remote_export, h1, he, h2, hs, hm, hm1, hm2]
  · subst hsv hmv
    simp [find_remote_export, findRemoteExportDir, h1, he, h2, hs, hm, hz]
  · subst hsv hmv
    simp [find_remote_export, findRemoteExportDir, h1, he, h2, hs, hm, hz]

/-- Witness for C5: the bad-signature image `c5Read` makes the resolver
return `None` after exactly the two header reads. -/
theorem find_remote_export_malformed_witness :
    find_remote_export c5Read 0 [65] = (FRes.ok none, [(0, 64), (64, 256)]) :=
  (find_remote_export_malformed c5Read 0 [65] 64 0x1234 0 demoDos demoPeBadSig
    (by decide) (by decide) (by decide) (by decide) (by decide)).1 (by decide)

theorem searchExportNames_long (read : ReadOracle) (module_base : Nat) (fn : List Nat)
    (nameData ordData funcData : List Nat) (nn : Nat)
    (hlen : nameData.length = nn * 4) (hfn : 128 < fn.length) :
    ∀ k i, k + i = nn →
    (searchExportNames read module_base fn nameData ordData funcData k i).1 = FRes.ok none := by
  intro k
  induction k with
  | zero => intro i _; simp [searchExportNames]
  | succ m ih =>
    intro i hki
    have hi : i * 4 + 4 ≤ nameData.length := by
      rw [hlen]; omega
    obtain ⟨v, hv⟩ : ∃ v, unpackU32 nameData (i * 4) = some v := by
      unfold unpackU32; simp [hi]
    have hne : candidateName read module_base v ≠ fn := by
      intro hEq
      have hle := candidateName_length_le read module_base v
      rw [hEq] at hle
      omega
    simp only [searchExportNames, hv, hne, if_neg, ite_false]
    exact ih (i + 1) (by omega)

theorem findRemoteExportDir_long (read : ReadOracle) (module_base : Nat) (fn : List Nat)
    (erva : Nat) (hfn : 128 < fn.length) :
    (findRemoteExportDir read module_base fn erva).1 = FRes.ok none := by
  unfold findRemoteExportDir
  split
  · rfl
  · cases h3 : read (module_base + erva) 40 with
    | none => simp
    | some r3 =>
      obtain ⟨nf, h20⟩ := unpackU32_toBuf 40 20 r3 (by omega)
      obtain ⟨nn, h24⟩ := unpackU32_toBuf 40 24 r3 (by omega)
      obtain ⟨frv, h28⟩ := unpackU32_toBuf 40 28 r3 (by omega)
      obtain ⟨nrv, h32⟩ := unpackU32_toBuf 40 32 r3 (by omega)
      obtain ⟨orv, h36⟩ := unpackU32_toBuf 40 36 r3 (by omega)
      simp only [h20, h24, h28, h32, h36]
      exact searchExportNames_long read module_base fn _ _ _ nn
        (toBuf_length _ _) hfn nn 0 (by omega)

theorem find_remote_export_long (read : ReadOracle) (module_base : Nat) (fn : List Nat)
    (hfn : 128 < fn.length) :
    (find_remote_export read module_base fn).1 = FRes.ok none := by
  unfold find_remote_export
  cases h1 : read module_base 64 with
  | none => simp
  | some r1 =>
    obtain ⟨e, he⟩ := unpackU32_toBuf 64 60 r1 (by omega)
    simp only [he]
    cases h2 : read (module_base + e) 256 with
    | none => simp
    | some r2 =>
      obtain ⟨s, hs⟩ := unpackU32_toBuf 256 0 r2 (by omega)
      obtain ⟨m, hm⟩ := unpackU16_toBuf 256 24 r2 (by omega)
      simp only [hs]
      by_cases hsig : s = 0x4550
      · simp only [hsig, ne_eq, not_true_eq_false, ite_false, hm]
        by_cases hm1 : m = 0x10B
        · obtain ⟨erva, hrva⟩ := unpackU32_toBuf 256 (24 + 96) r2 (by omega)
          simp only [hm1, ite_true, hrva]
          simp [findRemoteExportDir_long read module_base fn erva hfn]
        · by_cases hm2 : m = 0x20B
          · obtain ⟨erva, hrva⟩ := unpackU32_toBuf 256 (24 + 112) r2 (by omega)
            simp only [hm1, ite_false, hm2, ite_true, hrva]
            simp [findRemoteExportDir_long read module_base fn erva hfn]
          · simp [hm1, hm2]
      · simp [hsig]

/-! ## C6: fault characterization -/

theorem searchExportNames_fault (read : ReadOracle) (module_base : Nat) (fn : List Nat)
    (nameData ordData funcData : List Nat) (nn nf : Nat)
    (hname : nameData.length = nn * 4) (hord : ordData.length = nn * 2)
    (hfunc : funcData.length = nf * 4) :
    ∀ k i, k + i = nn →
    (searchExportNames read module_base fn nameData ordData funcData k i).1 = FRes.fault →
    ∃ j rva ov, i ≤ j ∧ j < nn ∧
      unpackU32 nameData (j * 4) = some rva ∧
      candidateName read module_base rva = fn ∧
      unpackU16 ordData (j * 2) = some ov ∧
      nf ≤ ov := by
  intro k
  induction k with
  | zero => intro i _ hf; simp [searchExportNames] at hf
  | succ m ih =>
    intro i hki hf
    have hi4 : i * 4 + 4 ≤ nameData.length := by rw [hname]; omega
    obtain ⟨rva, hrva⟩ : ∃ v, unpackU32 nameData (i * 4) = some v := by
      unfold unpackU32; simp [hi4]
    by_cases hmatch : candidateName read module_base rva = fn
    · simp only [searchExportNames, hrva, hmatch, ite_true] at hf
      have hi2 : i * 2 + 2 ≤ ordData.length := by rw [hord]; omega
      obtain ⟨ov, hov⟩ : ∃ v, unpackU16 ordData (i * 2) = some v := by
        unfold unpackU16; simp [hi2]
      simp only [hov] at hf
      cases hfu : unpackU32 funcData (ov * 4) with
      | some v => simp [hfu] at hf
      | none =>
        have hbound : ¬(ov * 4 + 4 ≤ funcData.length) := by
          intro hle
          unfold unpackU32 at hfu
          simp [hle] at hfu
        rw [hfunc] at hbound
        exact ⟨i, rva, ov, Nat.le_refl i, by omega, hrva, hmatch, hov, by omega⟩
    · simp only [searchExportNames, hrva, hmatch, ite_false] at hf
      obtain ⟨j, rva2, ov, hij, hjn, e1, e2, e3, e4⟩ := ih (i + 1) (by omega) hf
      exact ⟨j, rva2, ov, by omega, hjn, e1, e2, e3, e4⟩

theorem findRemoteExportDir_fault (read : ReadOracle) (module_base : Nat) (fn : List Nat)
    (erva : Nat)
    (hf : (findRemoteExportDir read module_base fn erva).1 = FRes.fault) :
    erva ≠ 0 ∧
    ∃ r3 nf nn frv nrv orv j rva ov,
      read (module_base + erva) 40 = some r3 ∧
      unpackU32 (toBuf 40 r3) 20 = some nf ∧
      unpackU32 (toBuf 40 r3) 24 = some nn ∧
      unpackU32 (toBuf 40 r3) 28 = some frv ∧
      unpackU32 (toBuf 40 r3) 32 = some nrv ∧
      unpackU32 (toBuf 40 r3) 36 = some orv ∧
      j < nn ∧
      unpackU32 (nameTableBuf read module_base nrv nn) (j * 4) = some rva ∧
      candidateName read module_base rva = fn ∧
      unpackU16 (ordTableBuf read module_base orv nn) (j * 2) = some ov ∧
      nf ≤ ov := by
  by_cases h0 : erva = 0
  · rw [findRemoteExportDir, if_pos h0] at hf
    simp at hf
  · refine ⟨h0, ?_⟩
    rw [findRemoteExportDir, if_neg h0] at hf
    cases h3 : read (module_base + erva) 40 with
    | none => simp [h3] at hf
    | some r3 =>
      simp only [h3] at hf
      obtain ⟨nf, h20⟩ := unpackU32_toBuf 40 20 r3 (by omega)
      obtain ⟨nn, h24⟩ := unpackU32_toBuf 40 24 r3 (by omega)
      obtain ⟨frv, h28⟩ := unpackU32_toBuf 40 28 r3 (by omega)
      obtain ⟨nrv, h32⟩ := unpackU32_toBuf 40 32 r3 (by omega)
      obtain ⟨orv, h36⟩ := unpackU32_toBuf 40 36 r3 (by omega)
      simp only [h20, h24, h28, h32, h36] at hf
      obtain ⟨j, rva, ov, _, hjn, e1, e2, e3, e4⟩ :=
        searchExportNames_fault read module_base fn _ _ _ nn nf
          (toBuf_length _ _) (toBuf_length _ _) (toBuf_length _ _) nn 0 (by omega) hf
      exact ⟨r3, nf, nn, frv, nrv, orv, j, rva, ov,
        rfl, h20, h24, h28, h32, h36, hjn, e1, e2, e3, e4⟩

/-- C6 (amended): `find_remote_export` returns a tagged outcome (`ok`
address or `ok` None) on every input EXCEPT when a candidate whose
truncated name equals the requested symbol carries an ordinal at least
`NumberOfFunctions`: then indexing the function-RVA array escapes the
buffer that was read and the call raises `struct.error` (`fault`) instead
of returning.  Name-pointer and ordinal indexing always stay within their
buffers; only the ordinal-driven function-array index can escape. -/
theorem find_remote_export_fault_characterization (read : ReadOracle) (module_base : Nat)
    (fn : List Nat)
    (hf : (find_remote_export read module_base fn).1 = FRes.fault) :
    ∃ r1 e r2 erva r3 nf nn frv nrv orv j rva ov,
      read module_base 64 = some r1 ∧
      unpackU32 (toBuf 64 r1) 60 = some e ∧
      read (module_base + e) 256 = some r2 ∧
      (unpackU16 (toBuf 256 r2) 24 = some 0x10B ∧
        unpackU32 (toBuf 256 r2) (24 + 96) = some erva ∨
       unpackU16 (toBuf 256 r2) 24 = some 0x20B ∧
        unpackU32 (toBuf 256 r2) (24 + 112) = some erva) ∧
      erva ≠ 0 ∧
      read (module_base + erva) 40 = some r3 ∧
      unpackU32 (toBuf 40 r3) 20 = some nf ∧
      unpackU32 (toBuf 40 r3) 24 = some nn ∧
      unpackU32 (toBuf 40 r3) 28 = some frv ∧
      unpackU32 (toBuf 40 r3) 32 = some nrv ∧
      unpackU32 (toBuf 40 r3) 36 = some orv ∧
      j < nn ∧
      unpackU32 (nameTableBuf read module_base nrv nn) (j * 4) = some rva ∧
      candidateName read module_base rva = fn ∧
      unpackU16 (ordTableBuf read module_base orv nn) (j * 2) = some ov ∧
      nf ≤ ov := by
  unfold find_remote_export at hf
  cases h1 : read module_base 64 with
  | none => simp [h1] at hf
  | some r1 =>
    obtain ⟨e, he⟩ := unpackU32_toBuf 64 60 r1 (by omega)
    simp only [h1, he] at hf
    cases h2 : read (module_base + e) 256 with
    | none => simp [h2] at hf
    | some r2 =>
      obtain ⟨s, hs⟩ := unpackU32_toBuf 256 0 r2 (by omega)
      obtain ⟨m, hm⟩ := unpackU16_toBuf 256 24 r2 (by omega)
      simp only [h2, hs] at hf
      by_cases hsig : s = 0x4550
      · simp only [hsig, ne_eq, not_true_eq_false, ite_false, hm] at hf
        by_cases hm1 : m = 0x10B
        · obtain ⟨erva, hrva⟩ := unpackU32_toBuf 256 (24 + 96) r2 (by omega)
          simp only [hm1, ite_true, hrva] at hf
          obtain ⟨hne, r3, nf, nn, frv, nrv, orv, j, rva, ov, c1, c2, c3, c4, c5, c6,
            c7, c8, c9, c10, c11⟩ := findRemoteExportDir_fault read module_base fn erva hf
          exact ⟨r1, e, r2, erva, r3, nf, nn, frv, nrv, orv, j, rva, ov,
            rfl, he, h2, Or.inl ⟨hm1 ▸ hm, hrva⟩, hne, c1, c2, c3, c4, c5, c6, c7, c8, c9, c10, c11⟩
        · by_cases hm2 : m = 0x20B
          · obtain ⟨erva, hrva⟩ := unpackU32_toBuf 256 (24 + 112) r2 (by omega)
            simp only [hm1, ite_false, hm2, ite_true, hrva] at hf
            obtain ⟨hne, r3, nf, nn, frv, nrv, orv, j, rva, ov, c1, c2, c3, c4, c5, c6,
              c7, c8, c9, c10, c11⟩ := findRemoteExportDir_fault read module_base fn erva hf
            exact ⟨r1, e, r2, erva, r3, nf, nn, frv, nrv, orv, j, rva, ov,
              rfl, he, h2, Or.inr ⟨hm2 ▸ hm, hrva⟩, hne, c1, c2, c3, c4, c5, c6, c7, c8, c9, c10, c11⟩
          · simp [hm1, hm2] at hf
      · simp [hsig] at hf

/-- C6 counterexample: on the `c6Read` image (single matching name with
ordinal 5 but only 1 function entry) `find_remote_export` raises
`struct.error` instead of returning an address or None. -/
theorem out_of_range_ordinal_faults :
    (find_remote_export c6Read 0 [65]).1 = FRes.fault := by decide

/-- Witness for the amended C6: applying the fault characterization to the
concrete faulting image yields a matched index whose ordinal escapes the
function buffer. -/
theorem find_remote_export_fault_characterization_witness :
    ∃ r1 e r2 erva r3 nf nn frv nrv orv j rva ov,
      c6Read 0 64 = some r1 ∧
      unpackU32 (toBuf 64 r1) 60 = some e ∧
      c6Read (0 + e) 256 = some r2 ∧
      (unpackU16 (toBuf 256 r2) 24 = some 0x10B ∧
        unpackU32 (toBuf 256 r2) (24 + 96) = some erva ∨
       unpackU16 (toBuf 256 r2) 24 = some 0x20B ∧
        unpackU32 (toBuf 256 r2) (24 + 112) = some erva) ∧
      erva ≠ 0 ∧
      c6Read (0 + erva) 40 = some r3 ∧
      unpackU32 (toBuf 40 r3) 20 = some nf ∧
      unpackU32 (toBuf 40 r3) 24 = some nn ∧
      unpackU32 (toBuf 40 r3) 28 = some frv ∧
      unpackU32 (toBuf 40 r3) 32 = some nrv ∧
      unpackU32 (toBuf 40 r3) 36 = some orv ∧
      j < nn ∧
      unpackU32 (nameTableBuf c6Read 0 nrv nn) (j * 4) = some rva ∧
      candidateName c6Read 0 rva = [65] ∧
      unpackU16 (ordTableBuf c6Read 0 orv nn) (j * 2) = some ov ∧
      nf ≤ ov :=
  find_remote_export_fault_characterization c6Read 0 [65] (by decide)

/-! ## C10: the 128-byte name window -/

/-- C10 counterexample: a symbol name of exactly 128 bytes (the claim's
"128 bytes or longer") CAN match — `c10Read` stores 128 `'A'` bytes whose
NUL lies beyond the window, and resolution returns an address, not None. -/
theorem window_exact_128_matches :
    (List.replicate 128 65 : List Nat).length = 128 ∧
    (find_remote_export c10Read 0 (List.replicate 128 65)).1 = FRes.ok (some 1) :=
  ⟨by decide, by decide⟩

/-- C10 (amended): names are read through a fixed 128-byte window and
truncated at the first zero byte; every symbol name STRICTLY longer than
128 bytes makes resolution return None regardless of the table contents,
and a candidate whose first 128 window bytes contain no zero can never
match a requested symbol shorter than 128 bytes. -/
theorem window_truncation_amended :
    (∀ (read : ReadOracle) (module_base : Nat) (fn : List Nat), 128 < fn.length →
      (find_remote_export read module_base fn).1 = FRes.ok none) ∧
    (∀ (read : ReadOracle) (module_base rva : Nat) (fn : List Nat), fn.length < 128 →
      (∀ b ∈ toBuf 128 ((read (module_base + rva) 128).getD []), b ≠ 0) →
      candidateName read module_base rva ≠ fn) := by
  constructor
  · exact fun read mb fn h => find_remote_export_long read mb fn h
  · intro read mb rva fn hlen hnz hEq
    have hall : ∀ b ∈ toBuf 128 ((read (mb + rva) 128).getD []),
        (fun b => decide (b ≠ 0)) b = true := fun b hb => by
      simpa using hnz b hb
    have hfull : (toBuf 128 ((read (mb + rva) 128).getD [])).takeWhile
        (fun b => b ≠ 0) = toBuf 128 ((read (mb + rva) 128).getD []) := by
      have h := takeWhile_append_of_all _ (toBuf 128 ((read (mb + rva) 128).getD [])) [] hall
      simpa using h
    have hlen128 : (candidateName read mb rva).length = 128 := by
      unfold candidateName
      rw [hfull, toBuf_length]
    rw [hEq] at hlen128
    omega

/-- Witness for the amended C10: a 129-byte query resolves to None on the
`c10Read` image, and the zero-free 128-byte candidate there cannot match
the 1-byte query `"A"`. -/
theorem window_truncation_amended_witness :
    (find_remote_export c10Read 0 (List.replicate 129 65)).1 = FRes.ok none ∧
    candidateName c10Read 0 5120 ≠ [65] :=
  ⟨window_truncation_amended.1 c10Read 0 (List.replicate 129 65) (by decide),
   window_truncation_amended.2 c10Read 0 5120 [65] (by decide) (by decide)⟩

/-! ## Claims about `inject_dll` -/

theorem injectAfterResolve_fields (env : Env) (a : Nat) (u : Bool) :
    (injectAfterResolve env a u).usedRemoteResolve = u ∧
    (injectAfterResolve env a u).resolvedAddr = some a ∧
    (injectAfterResolve env a u).processClosed = true ∧
    (injectAfterResolve env a u).stage ≠ Stage.writeFail := by
  unfold injectAfterResolve
  split
  · simp
  · split
    · simp
    · split
      · split
        · simp
        · simp
      · simp

/-- C1 (code-bug evidence): the bulk read of the name-pointer array FAILS
on `c1Read`, yet `find_remote_export` does not abort: it keeps issuing
reads (the ordinal, function and name-string reads that follow in the
trace), parses the zero-filled name-pointer buffer, and even returns an
address. -/
theorem unchecked_read_continues :
    c1Read 3072 4 = none ∧
    find_remote_export c1Read 0 [65] =
      (FRes.ok (some 22136),
        [(0, 64), (64, 256), (1024, 40), (3072, 4), (4096, 2), (2048, 4), (0, 128)]) :=
  ⟨by decide, by decide⟩

/-- C3 (code-bug evidence): when the remote thread completes and
`GetExitCodeThread` reports 0, `inject_dll` returns `False` without
closing the thread handle (the `CloseHandle(h_thread)` on line 445 is
bypassed by the early `return False`), while the process handle is still
closed by `finally`. -/
theorem thread_handle_leak_on_null_load :
    inject_dll envLoadNull =
      { ret := false, raised := false, stage := Stage.loadNull,
        processOpened := true, processClosed := true,
        threadCreated := true, threadClosed := false,
        usedRemoteResolve := false, resolvedAddr := some 42 } := by decide

/-- C4 counterexample: with every step succeeding and
`WaitForSingleObject` reporting a timeout, `inject_dll` returns `True`
(the timeout branch falls through to `return True`) and `main` therefore
exits with status 0 — not the claimed Timeout failure with exit status 1. -/
theorem timeout_reports_success :
    (inject_dll envTimeout).ret = true ∧
    (inject_dll envTimeout).stage = Stage.timeout ∧
    main_exit envTimeout true = 0 := ⟨by decide, by decide, by decide⟩

/-- C4 (amended): if the remote execution does not signal completion
within the fixed 10-second wait window, `inject_dll` prints a warning but
closes both handles and returns `True`, so the program exits with status
0; exit status 0 is thus produced on success or on timeout. -/
theorem timeout_behavior_amended (env : Env) (a : Nat)
    (h1 : env.dllExists = true)
    (h2 : env.openProcess ≠ none)
    (h3 : env.alloc ≠ none)
    (h4 : env.write ≠ none)
    (h5a : (env.self64 && env.targ32) = true →
      ∃ kb, env.moduleBase = some kb ∧
        (find_remote_export env.read kb loadLibraryName).1 = FRes.ok (some a))
    (h5b : (env.self64 && env.targ32) = false → env.getProc = a ∧ a ≠ 0)
    (h6 : ¬(env.targ32 = true ∧ a > 0xFFFFFFFF))
    (h7 : env.createThread ≠ none)
    (h8 : env.waitResult ≠ 0) :
    (inject_dll env).ret = true ∧ (inject_dll env).stage = Stage.timeout ∧
    (inject_dll env).threadClosed = true ∧ (inject_dll env).processClosed = true ∧
    main_exit env true = 0 := by
  have hguard : (env.targ32 && decide (a > 0xFFFFFFFF)) = false := by
    cases ht : env.targ32
    · simp
    · simp only [Bool.true_and, decide_eq_false_iff_not]
      exact fun h => h6 ⟨ht, h⟩
  cases hop : env.openProcess with
  | none => exact absurd hop h2
  | some hp =>
    cases hal : env.alloc with
    | none => exact absurd hal h3
    | some mem =>
      cases hw : env.write with
      | none => exact absurd hw h4
      | some bw =>
        cases hct : env.createThread with
        | none => exact absurd hct h7
        | some ht =>
          have hinj : (inject_dll env).ret = true ∧ (inject_dll env).stage = Stage.timeout ∧
              (inject_dll env).threadClosed = true ∧
              (inject_dll env).processClosed = true ∧
              (inject_dll env).raised = false := by
            cases hc : env.self64 && env.targ32 with
            | true =>
              obtain ⟨kb, hkb, hres⟩ := h5a hc
              simp [inject_dll, h1, hop, hal, hw, hc, hkb, hres,
                injectAfterResolve, hguard, hct, h8]
            | false =>
              obtain ⟨hgp, hne⟩ := h5b hc
              simp [inject_dll, h1, hop, hal, hw, hc, hgp, hne,
                injectAfterResolve, hguard, hct, h8]
          refine ⟨hinj.1, hinj.2.1, hinj.2.2.1, hinj.2.2.2.1, ?_⟩
          simp [main_exit, h1, hinj.1, hinj.2.2.2.2]

/-- Witness for the amended C4: the concrete timing-out environment. -/
theorem timeout_behavior_amended_witness :
    (inject_dll envTimeout).ret = true ∧ (inject_dll envTimeout).stage = Stage.timeout ∧
    (inject_dll envTimeout).threadClosed = true ∧
    (inject_dll envTimeout).processClosed = true ∧
    main_exit envTimeout true = 0 :=
  timeout_behavior_amended envTimeout 42 (by decide) (by decide) (by decide) (by decide)
    (fun h => absurd h (by decide)) (fun _ => ⟨by decide, by decide⟩) (by decide)
    (by decide) (by decide)

/-- C7 counterexample: `WriteProcessMemory` reports success having written
0 of the 3 payload bytes (a short write), yet `inject_dll` proceeds to the
address-resolution stage (it fails there only because `GetProcAddress`
was made to fail) instead of aborting the write step. -/
theorem short_write_not_detected :
    envShortWrite.write = some 0 ∧ envShortWrite.dllPathBytes.length + 1 = 3 ∧
    (inject_dll envShortWrite).stage = Stage.getProcFail :=
  ⟨by decide, by decide, by decide⟩

/-- C7 (amended): `inject_dll` aborts the write step exactly when the
write API reports failure; the reported bytes-written count is never
compared against the payload length, so a "successful" short write
proceeds to address resolution. -/
theorem write_check_is_api_only (env : Env)
    (h1 : env.dllExists = true) (h2 : env.openProcess ≠ none) (h3 : env.alloc ≠ none) :
    (env.write = none → inject_dll env =
      { ret := false, raised := false, stage := Stage.writeFail, processOpened := true,
        processClosed := true, threadCreated := false, threadClosed := false,
        usedRemoteResolve := false, resolvedAddr := none }) ∧
    (∀ n, env.write = some n → (inject_dll env).stage ≠ Stage.writeFail) := by
  cases hop : env.openProcess with
  | none => exact absurd hop h2
  | some hp =>
    cases hal : env.alloc with
    | none => exact absurd hal h3
    | some mem =>
      constructor
      · intro hw
        simp [inject_dll, h1, hop, hal, hw]
      · intro n hw
        cases hc : env.self64 && env.targ32 with
        | true =>
          cases hmb : env.moduleBase with
          | none => simp [inject_dll, h1, hop, hal, hw, hc, hmb]
          | some kb =>
            cases hres : (find_remote_export env.read kb loadLibraryName).1 with
            | fault => simp [inject_dll, h1, hop, hal, hw, hc, hmb, hres]
            | ok oa =>
              cases oa with
              | none => simp [inject_dll, h1, hop, hal, hw, hc, hmb, hres]
              | some a =>
                have hne := (injectAfterResolve_fields env a true).2.2.2
                simp [inject_dll, h1, hop, hal, hw, hc, hmb, hres, hne]
        | false =>
          by_cases hgp : env.getProc = 0
          · simp [inject_dll, h1, hop, hal, hw, hc, hgp]
          · have hne := (injectAfterResolve_fields env env.getProc false).2.2.2
            simp [inject_dll, h1, hop, hal, hw, hc, hgp, hne]

/-- Witness for the amended C7: the short-write environment reaches the
resolution stage rather than the write-failure stage. -/
theorem write_check_is_api_only_witness :
    (inject_dll envShortWrite).stage ≠ Stage.writeFail :=
  (write_check_is_api_only envShortWrite (by decide) (by decide) (by decide)).2 0 (by decide)

/-- C8: when the caller is 64-bit, the target 32-bit, and the resolved
`LoadLibraryA` address exceeds 0xFFFFFFFF, `inject_dll` stops at the
dedicated range-check failure, returns `False`, and never creates a
remote thread. -/
theorem range_guard_blocks_thread (env : Env) (kb a : Nat)
    (h1 : env.dllExists = true)
    (h2 : env.openProcess ≠ none)
    (h3 : env.alloc ≠ none)
    (h4 : env.write ≠ none)
    (h5 : env.self64 = true) (h6 : env.targ32 = true)
    (h7 : env.moduleBase = some kb)
    (h8 : (find_remote_export env.read kb loadLibraryName).1 = FRes.ok (some a))
    (h9 : a > 0xFFFFFFFF) :
    inject_dll env =
      { ret := false, raised := false, stage := Stage.rangeFail,
        processOpened := true, processClosed := true,
        threadCreated := false, threadClosed := false,
        usedRemoteResolve := true, resolvedAddr := some a } := by
  cases hop : env.openProcess with
  | none => exact absurd hop h2
  | some hp =>
    cases hal : env.alloc with
    | none => exact absurd hal h3
    | some mem =>
      cases hw : env.write with
      | none => exact absurd hw h4
      | some bw =>
        simp [inject_dll, h1, hop, hal, hw, h5, h6, h7, h8, injectAfterResolve, h9]

/-- Witness for C8: the relocated image at base 0xFFFFFFFF resolves
`LoadLibraryA` above the 32-bit range and the guard fires. -/
theorem range_guard_blocks_thread_witness :
    inject_dll envRange =
      { ret := false, raised := false, stage := Stage.rangeFail,
        processOpened := true, processClosed := true,
        threadCreated := false, threadClosed := false,
        usedRemoteResolve := true, resolvedAddr := some 4294989431 } :=
  range_guard_blocks_thread envRange 4294967295 4294989431 (by decide) (by decide)
    (by decide) (by decide) (by decide) (by decide) (by decide) (by decide) (by decide)

/-- C9: whenever the cross-mode condition is false, `inject_dll` never
invokes the remote-resolution path (`find_remote_module_base` /
`find_remote_export`), and any resolved address it uses is the local
`GetProcAddress` result. -/
theorem same_mode_uses_local_lookup (env : Env)
    (h : (env.self64 && env.targ32) = false) :
    (inject_dll env).usedRemoteResolve = false ∧
    (∀ a, (inject_dll env).resolvedAddr = some a → a = env.getProc) := by
  cases hd : env.dllExists with
  | false => simp [inject_dll, hd]
  | true =>
    cases hop : env.openProcess with
    | none => simp [inject_dll, hd, hop]
    | some hp =>
      cases hal : env.alloc with
      | none => simp [inject_dll, hd, hop, hal]
      | some mem =>
        cases hw : env.write with
        | none => simp [inject_dll, hd, hop, hal, hw]
        | some bw =>
          by_cases hgp : env.getProc = 0
          · simp [inject_dll, hd, hop, hal, hw, h, hgp]
          · have hf := injectAfterResolve_fields env env.getProc false
            constructor
            · simp [inject_dll, hd, hop, hal, hw, h, hgp, hf.1]
            · intro a ha
              have hra : (inject_dll env).resolvedAddr = some env.getProc := by
                simp [inject_dll, hd, hop, hal, hw, h, hgp, hf.2.1]
              rw [hra] at ha
              exact (Option.some.inj ha).symm

/-- Witness for C9: the concrete same-architecture environment never
touches the remote-resolution path. -/
theorem same_mode_uses_local_lookup_witness :
    (inject_dll envSameArch).usedRemoteResolve = false :=
  (same_mode_uses_local_lookup envSameArch (by decide)).1

end Inject
